import Mathlib

/-!
Verification development for the TrackIt study-timer application
(`TrackIt 1/TrackIt 4.3.py`).  The CSV-backed logger, the JSON config
loader, the hour-bucketing aggregation behind the hourly-productivity
chart, the daily-goal setter and the countdown tick are embedded as
executable Lean definitions, and the behavioural claims about them are
settled as theorems below.

Modelling conventions:
* Python floats are modelled as `Rat` (the aggregations only add and
  divide, so exact rational arithmetic mirrors the intent; binary
  floating-point rounding is not modelled).
* A CSV file is its header line plus the raw data rows (lists of cell
  strings), exactly what `csv.reader` yields.  `csv.DictReader` row
  access is modelled by `dictRowGet` below.
* Python exceptions relevant to the code are `ValueError`, `KeyError`
  and `TypeError`; fallible scans return `Except PyErr`.
-/

set_option maxRecDepth 4000

deriving instance DecidableEq for Except

/-- The Python exception classes that the error handling of
`CSVLogger` distinguishes: `float(...)` raises `ValueError` on an
unparseable string and `TypeError` on `None`; a dict lookup of an
absent key raises `KeyError`. -/
inductive PyErr where
  | valueError : PyErr
  | keyError : PyErr
  | typeError : PyErr
deriving DecidableEq, Repr

/-- A CSV file as the `csv` module sees it: the header line (the first
row, used by `csv.DictReader` as the field names) and the data rows. -/
structure CSVFile where
  header : List String
  rows : List (List String)
deriving DecidableEq, Repr

/-- Index of the last occurrence of `k` in `l`, if any.  `csv.DictReader`
builds each row dict as `dict(zip(fieldnames, row))` (with `restval =
None` padding), so for a duplicated field name the last occurrence wins. -/
def lastIdxOf (l : List String) (k : String) : Option Nat :=
  match l with
  | [] => none
  | a :: t =>
    match lastIdxOf t k with
    | some i => some (i + 1)
    | none => if a = k then some 0 else none

/-- `row[key]` on a `csv.DictReader` row: `KeyError` if the header has
no such field; otherwise the cell string, or `none` when the physical
row is shorter than the header (`DictReader` pads with `restval = None`). -/
def dictRowGet (header row : List String) (key : String) : Except PyErr (Option String) :=
  match lastIdxOf header key with
  | none => .error .keyError
  | some i => .ok row[i]?

/-- Digit characters to a natural number (`foldl`, most significant first). -/
def digitsToNat (cs : List Char) : Nat :=
  cs.foldl (fun acc c => acc * 10 + (c.toNat - '0'.toNat)) 0

/-- All characters are decimal digits (and there is at least one). -/
def allDigits (cs : List Char) : Bool :=
  !cs.isEmpty && cs.all (·.isDigit)

/-- Strip leading and trailing whitespace from a character list
(Python's `float` and `int` accept surrounding whitespace). -/
def trimChars (cs : List Char) : List Char :=
  ((cs.dropWhile (·.isWhitespace)).reverse.dropWhile (·.isWhitespace)).reverse

/-- Split an optional leading sign off a character list, returning the
sign as `+1` or `-1` and the rest. -/
def splitSign (cs : List Char) : Int × List Char :=
  match cs with
  | '+' :: t => (1, t)
  | '-' :: t => (-1, t)
  | _ => (1, cs)

/-- The unsigned mantissa part `digits [. digits]` of a float literal:
integer digits, fraction digits, with at least one digit overall. -/
def parseMantissa (cs : List Char) : Option Rat :=
  let intPart := cs.takeWhile (·.isDigit)
  let rest := cs.dropWhile (·.isDigit)
  match rest with
  | [] => if intPart.isEmpty then none else some (digitsToNat intPart)
  | '.' :: fracPart =>
    if fracPart.all (·.isDigit) && !(intPart.isEmpty && fracPart.isEmpty) then
      some ((digitsToNat intPart : Rat) +
        (digitsToNat fracPart : Rat) / ((10 : Rat) ^ fracPart.length))
    else none
  | _ => none

/-- Scale a rational by a signed power of ten (the `e`/`E` exponent of
a float literal). -/
def scalePow10 (q : Rat) (e : Int) : Rat :=
  if 0 ≤ e then q * (10 : Rat) ^ e.toNat else q / (10 : Rat) ^ (-e).toNat

/-- Model of Python's `float(s)` on a string: optional surrounding
whitespace, optional sign, decimal mantissa, optional decimal exponent.
(`inf`/`nan` and digit-group underscores are not modelled; no claim
involves them.)  `none` means `float` raises `ValueError`. -/
def pyFloat? (s : String) : Option Rat :=
  let (sign, body) := splitSign (trimChars s.data)
  let mantissa := body.takeWhile (fun c => c.isDigit || c = '.')
  let expPart := body.dropWhile (fun c => c.isDigit || c = '.')
  match parseMantissa mantissa with
  | none => none
  | some m =>
    match expPart with
    | [] => some (sign * m)
    | e :: t =>
      if e = 'e' || e = 'E' then
        let (esign, edigits) := splitSign t
        if allDigits edigits then
          some (scalePow10 (sign * m) (esign * (digitsToNat edigits : Int)))
        else none
      else none

/-- Model of Python's `int(s)` on a string: optional surrounding
whitespace, optional sign, at least one decimal digit.  `none` means
`int` raises `ValueError`. -/
def pyInt? (s : String) : Option Int :=
  let (sign, body) := splitSign (trimChars s.data)
  if allDigits body then some (sign * (digitsToNat body : Int)) else none

/-- `float(cell)` on a `DictReader` cell: a missing cell is `None`, and
`float(None)` raises `TypeError` (which `except (ValueError, KeyError)`
does *not* catch); an unparseable string raises `ValueError`. -/
def pyFloatCell (c : Option String) : Except PyErr Rat :=
  match c with
  | none => .error .typeError
  | some s =>
    match pyFloat? s with
    | some q => .ok q
    | none => .error .valueError

/-! ## CSVLogger reads (`get_today_minutes`, `get_weekly_data`, `get_all_data`) -/

/-- The row loop of `CSVLogger.get_today_minutes` (lines 541-549).
`row['date']` is read *outside* the inner `try`, so a `KeyError` there
propagates to the function-level handler; the inner
`except (ValueError, KeyError)` around `total += float(row['minutes'])`
skips the row, but a `TypeError` (from `float(None)`) propagates.
`csv.DictReader` skips physically blank rows. -/
def todayScan (today : String) (hdr : List String) :
    List (List String) → Rat → Except PyErr Rat
  | [], total => .ok total
  | r :: rs, total =>
    if r = [] then todayScan today hdr rs total
    else
      match dictRowGet hdr r "date" with
      | .error e => .error e
      | .ok dOpt =>
        if dOpt = some today then
          match dictRowGet hdr r "minutes" with
          | .error _ => todayScan today hdr rs total
          | .ok c =>
            match pyFloatCell c with
            | .ok q => todayScan today hdr rs (total + q)
            | .error .valueError => todayScan today hdr rs total
            | .error .keyError => todayScan today hdr rs total
            | .error .typeError => .error .typeError
        else todayScan today hdr rs total

/-- `CSVLogger.get_today_minutes` (lines 536-554): `none` models a
missing log file (the `os.path.exists` guard leaves `total = 0`); any
uncaught exception makes the outer handler return `0`. -/
def getTodayMinutes (today : String) (file : Option CSVFile) : Rat :=
  match file with
  | none => 0
  | some f =>
    match todayScan today f.header f.rows 0 with
    | .ok total => total
    | .error _ => 0

/-- The nested `defaultdict(lambda: defaultdict(float))` of the
aggregation reads, as an insertion-ordered association list (Python
dicts preserve insertion order; an absent key reads as the default and
a fresh key is appended at the end). -/
def updD {α β : Type} [DecidableEq α] (m : List (α × β)) (k : α) (f : β → β) (dflt : β) :
    List (α × β) :=
  match m with
  | [] => [(k, f dflt)]
  | (k', v) :: t => if k = k' then (k', f v) :: t else (k', v) :: updD t k f dflt

/-- Association-list lookup (Python `dict.__getitem__` on the dicts
built by the scans, whose keys are unique). -/
def alistGet {α β : Type} [DecidableEq α] : List (α × β) → α → Option β
  | [], _ => none
  | (k', v) :: t, k => if k = k' then some v else alistGet t k

/-- The mapping produced by `get_weekly_data` / `get_all_data`:
date → (subject → accumulated minutes).  Keys are `Option String`
because a row shorter than the header yields `None` cells, which Python
happily uses as dict keys. -/
abbrev WeekData : Type := List (Option String × List (Option String × Rat))

/-- The row loop of `CSVLogger.get_weekly_data` (lines 562-570): the
inner `try` wraps the three field reads and the accumulation, and
`except (ValueError, KeyError)` skips the row; a `TypeError` from
`float(None)` is not caught and aborts the scan. -/
def weekScan (hdr : List String) : List (List String) → WeekData → Except PyErr WeekData
  | [], data => .ok data
  | r :: rs, data =>
    if r = [] then weekScan hdr rs data
    else
      match dictRowGet hdr r "date" with
      | .error _ => weekScan hdr rs data
      | .ok dOpt =>
        match dictRowGet hdr r "subject" with
        | .error _ => weekScan hdr rs data
        | .ok sOpt =>
          match dictRowGet hdr r "minutes" with
          | .error _ => weekScan hdr rs data
          | .ok c =>
            match pyFloatCell c with
            | .ok q => weekScan hdr rs (updD data dOpt (fun inner => updD inner sOpt (· + q) 0) [])
            | .error .valueError => weekScan hdr rs data
            | .error .keyError => weekScan hdr rs data
            | .error .typeError => .error .typeError

/-- The row loop of `CSVLogger.get_all_data` (lines 583-591) — the
source duplicates the body of `get_weekly_data` verbatim. -/
def allScan (hdr : List String) : List (List String) → WeekData → Except PyErr WeekData
  | [], data => .ok data
  | r :: rs, data =>
    if r = [] then allScan hdr rs data
    else
      match dictRowGet hdr r "date" with
      | .error _ => allScan hdr rs data
      | .ok dOpt =>
        match dictRowGet hdr r "subject" with
        | .error _ => allScan hdr rs data
        | .ok sOpt =>
          match dictRowGet hdr r "minutes" with
          | .error _ => allScan hdr rs data
          | .ok c =>
            match pyFloatCell c with
            | .ok q => allScan hdr rs (updD data dOpt (fun inner => updD inner sOpt (· + q) 0) [])
            | .error .valueError => allScan hdr rs data
            | .error .keyError => allScan hdr rs data
            | .error .typeError => .error .typeError

/-- `CSVLogger.get_weekly_data` (lines 556-575): missing file or any
uncaught exception yields the empty mapping. -/
def getWeeklyData (file : Option CSVFile) : WeekData :=
  match file with
  | none => []
  | some f =>
    match weekScan f.header f.rows [] with
    | .ok data => data
    | .error _ => []

/-- `CSVLogger.get_all_data` (lines 577-596): missing file or any
uncaught exception yields the empty mapping. -/
def getAllData (file : Option CSVFile) : WeekData :=
  match file with
  | none => []
  | some f =>
    match allScan f.header f.rows [] with
    | .ok data => data
    | .error _ => []

/-- The minute total a `WeekData` mapping holds for a date and subject
(`0` when absent, matching the `defaultdict(float)` read). -/
def valueAt (data : WeekData) (d s : Option String) : Rat :=
  (alistGet ((alistGet data d).getD []) s).getD 0

/-! ## ConfigManager (`load_config`) -/

/-- JSON values as `json.load` produces them.  Numbers are kept as one
constructor (exact value as `Rat`); object member order and duplicate
keys follow Python's parser (later duplicate wins at lookup). -/
inductive Json where
  | null : Json
  | bool (b : Bool) : Json
  | num (q : Rat) : Json
  | str (s : String) : Json
  | arr (elems : List Json) : Json
  | obj (members : List (String × Json)) : Json

/-- `dict.get(key, default)` minus the default: the value stored under
`key`, the *last* binding winning as in a parsed JSON object. -/
def jGet (members : List (String × Json)) (key : String) : Option Json :=
  match members with
  | [] => none
  | (k, v) :: t =>
    match jGet t key with
    | some w => some w
    | none => if k = key then some v else none

/-- The three fields `ConfigManager` keeps.  Python stores whatever
JSON value sits under each key, so the fields are `Json`. -/
structure Config where
  subjects : Json
  daily_goal : Json
  theme : Json

/-- `DEFAULT_SUBJECTS = ["Math", "Physics", "Chemistry"]` (line 51), as
the JSON value the config round-trips. -/
def DEFAULT_SUBJECTS : Json := .arr [.str "Math", .str "Physics", .str "Chemistry"]

/-- `DEFAULT_DAILY_GOAL = 690` (line 52). -/
def DEFAULT_DAILY_GOAL : Rat := 690

/-- The field values set in `ConfigManager.__init__` (lines 453-456)
and restored by the `except` branch of `load_config`. -/
def defaultConfig : Config :=
  { subjects := DEFAULT_SUBJECTS, daily_goal := .num DEFAULT_DAILY_GOAL, theme := .str "system" }

/-- `ConfigManager.load_config` (lines 459-474).  Input: `none` when
`CONFIG_FILE` does not exist (the fields keep their `__init__`
defaults), `some none` when `json.load` raises (reset to defaults),
`some (some j)` for a parsed value `j`: a non-dict raises `ValueError`
(reset to defaults), a dict fills each field from its key with
`config.get(key, default)`. -/
def load_config (input : Option (Option Json)) : Config :=
  match input with
  | none => defaultConfig
  | some none => defaultConfig
  | some (some j) =>
    match j with
    | .obj members =>
      { subjects := (jGet members "subjects").getD DEFAULT_SUBJECTS
        daily_goal := (jGet members "daily_goal").getD (.num DEFAULT_DAILY_GOAL)
        theme := (jGet members "theme").getD (.str "system") }
    | _ => defaultConfig

/-! ## CSVLogger.log -/

/-- Round-half-to-even at two decimal places: the idealization of
Python's `round(minutes, 2)` (the binary-float tie-breaking noise of
`round` on floats is not modelled). -/
def roundHalfEven2 (q : Rat) : Rat :=
  (let x := q * 100
   let n : Int := ⌊x⌋
   if x - n < 1/2 then (n : Rat)
   else if (1:Rat)/2 < x - n then ((n + 1 : Int) : Rat)
   else if n % 2 = 0 then (n : Rat) else ((n + 1 : Int) : Rat)) / 100

/-- Decimal rendering of a two-decimal rational, the way `str` prints
the float `round(minutes, 2)`: at least one fractional digit, a
trailing zero dropped (`"30.0"`, `"2.5"`, `"2.55"`). -/
def twoDecString (q : Rat) : String :=
  let z : Int := ⌊q * 100⌋
  let sign := if z < 0 then "-" else ""
  let a := z.natAbs
  let frac := a % 100
  let fracStr :=
    if frac = 0 then "0"
    else if frac % 10 = 0 then toString (frac / 10)
    else if frac < 10 then "0" ++ toString frac
    else toString frac
  sign ++ toString (a / 100) ++ "." ++ fracStr

/-- `CSVLogger.log` (lines 520-534): open the log in append mode and
`writerow([now.date(), now.strftime("%H:%M:%S"), subject,
round(minutes, 2)])`.  The current date and time-of-day strings are
parameters (the ambient clock). -/
def CSVLogger.log (f : CSVFile) (dateS timeS subject : String) (minutes : Rat) : CSVFile :=
  { f with rows := f.rows ++ [[dateS, timeS, subject, twoDecString (roundHalfEven2 minutes)]] }

/-! ## Countdown timer (`update_timer`, lines 1120-1142) -/

/-- The timer state `update_timer` touches: `timer_running`,
`remaining_time` (a Python `int` of seconds), and whether a
`root.after(1000, ...)` callback is currently armed. -/
structure TimerState where
  running : Bool
  remaining : Int
  armed : Bool
deriving DecidableEq, Repr

/-- The body of `StudyTrackerApp.update_timer`: with
`remaining_time <= 0` it stops (`timer_running = False`, no re-arm);
otherwise it decrements `remaining_time` by one *unconditionally* and
re-arms the one-second callback only when `timer_running` is true. -/
def update_timer (s : TimerState) : TimerState :=
  if s.remaining ≤ 0 then { s with running := false, armed := false }
  else { running := s.running, remaining := s.remaining - 1, armed := s.running }

/-- One tick of the event loop: the armed callback fires and runs
`update_timer`; with no armed callback nothing happens. -/
def tickStep (s : TimerState) : TimerState :=
  if s.armed then update_timer s else s

/-! ## StudyTrackerApp.set_goal (lines 1059-1073) -/

/-- The user-visible outcome of `set_goal`: the `showinfo` confirmation
(with the stored value) or the `showerror` dialog. -/
inductive GoalDialog where
  | info (goal : Int) : GoalDialog
  | error : GoalDialog
deriving DecidableEq, Repr

/-- `StudyTrackerApp.set_goal`: `int(self.goal_var.get())`; a
`ValueError` (unparseable, or raised for a non-positive value) lands in
the `except` branch which only shows an error dialog; otherwise the
goal is clamped to at most `1440` and stored. -/
def set_goal (input : String) (goal : Int) : Int × GoalDialog :=
  match pyInt? input with
  | none => (goal, .error)
  | some n =>
    if n ≤ 0 then (goal, .error)
    else
      let n' := if n > 1440 then 1440 else n
      (n', .info n')

/-! ## Hour bucketing (`plot_hourly_productivity_multiline`, lines 387-448) -/

/-- Split a character list at every occurrence of `sep` (used to model
`strptime` field separation for `%H:%M:%S` and `%Y-%m-%d`). -/
def splitOnChar (sep : Char) (cs : List Char) : List (List Char) :=
  match cs with
  | [] => [[]]
  | c :: t =>
    let r := splitOnChar sep t
    if c = sep then [] :: r
    else
      match r with
      | [] => [[c]]
      | h :: t2 => (c :: h) :: t2

/-- A `strptime` numeric field: one or two digit characters, value at
most `bound`. -/
def timeComp? (cs : List Char) (bound : Nat) : Option Nat :=
  if allDigits cs && decide (cs.length ≤ 2) then
    let n := digitsToNat cs
    if n ≤ bound then some n else none
  else none

/-- `strptime(..., "%H:%M:%S")` on the time-of-day part: seconds since
midnight, or `none` on a parse failure (`ValueError`). -/
def parseTime? (s : String) : Option Nat :=
  match splitOnChar ':' s.data with
  | [h, m, sec] =>
    match timeComp? h 23, timeComp? m 59, timeComp? sec 59 with
    | some h', some m', some s' => some (3600 * h' + 60 * m' + s')
    | _, _, _ => none
  | _ => none

/-- Gregorian leap year (Python `calendar`/`datetime` rule). -/
def isLeapYear (y : Nat) : Bool :=
  (y % 4 == 0 && !(y % 100 == 0)) || y % 400 == 0

/-- Days in a month, for `datetime`'s day-of-month validation. -/
def daysInMonth (y mo : Nat) : Nat :=
  if mo = 2 then (if isLeapYear y then 29 else 28)
  else if mo = 4 ∨ mo = 6 ∨ mo = 9 ∨ mo = 11 then 30
  else 31

/-- Whether `datetime.strptime` accepts the date part against
`"%Y-%m-%d"`: four-digit year of a valid `datetime` year, and a
calendar-valid month and day. -/
def parseDate? (s : String) : Bool :=
  match splitOnChar '-' s.data with
  | [y, mo, d] =>
    allDigits y && decide (y.length = 4) && allDigits mo && decide (mo.length ≤ 2) &&
      allDigits d && decide (d.length ≤ 2) &&
      (let yn := digitsToNat y
       let mn := digitsToNat mo
       let dn := digitsToNat d
       decide (1 ≤ yn) && decide (1 ≤ mn) && decide (mn ≤ 12) && decide (1 ≤ dn) &&
         decide (dn ≤ daysInMonth yn mn))
  | _ => false

/-- `datetime.strptime(f"{date} {timestamp}", "%Y-%m-%d %H:%M:%S")`
(line 403): the session start as seconds since the midnight of its own
date, or `none` when `strptime` raises. -/
def parseStart? (dateS timeS : String) : Option Nat :=
  if parseDate? dateS then parseTime? timeS else none

/-- `⌊t / 3600⌋`: the index of the hour window containing the absolute
time `t` (seconds since the session date's midnight; the index runs past
`23` when a session crosses midnight, exactly as a `datetime` does). -/
def hourFloor (t : Rat) : Int := ⌊t / 3600⌋

/-- The hour-of-day of hour window `k` (`datetime.hour` of any instant
in the window): `k mod 24`. -/
def hourOfInt (k : Int) : Fin 24 :=
  ⟨(k % 24).toNat, by
    have h1 : 0 ≤ k % 24 := Int.emod_nonneg k (by norm_num)
    have h2 : k % 24 < 24 := Int.emod_lt_of_pos k (by norm_num)
    omega⟩

/-- `current.hour` (line 409) as a function of absolute seconds. -/
def hourOf (t : Rat) : Fin 24 := hourOfInt (hourFloor t)

/-- `current.replace(minute=0, second=0, microsecond=0) +
timedelta(hours=1)` (line 410): the start of the next hour window. -/
def nextHourTime (t : Rat) : Rat := ((hourFloor t + 1 : Int) : Rat) * 3600

/-- The `while current < end_time` loop of the hour bucketing (lines
408-415), structurally recursive on a fuel bound: each pass credits
`(slice_end - current) / 60` minutes to the hour-of-day bucket of
`current` and advances `current` to `min(end_time, next_hour)`. -/
def bucketLoop : Nat → Rat → Rat → (Fin 24 → Rat) → (Fin 24 → Rat)
  | 0, _, _, acc => acc
  | fuel + 1, endT, current, acc =>
    if current < endT then
      bucketLoop fuel endT (min endT (nextHourTime current))
        (Function.update acc (hourOf current)
          (acc (hourOf current) + (min endT (nextHourTime current) - current) / 60))
    else acc

/-- Fuel sufficient for `bucketLoop` to run the source loop to
completion: one pass per hour boundary crossed, plus one. -/
def loopFuel (endT current : Rat) : Nat :=
  (hourFloor endT - hourFloor current).toNat + 1

/-- The minutes a single session starting at `startSec` (seconds after
its date's midnight) and lasting `minutes` credits to each hour-of-day
bucket: the source loop run on an all-zero accumulator. -/
def sessionBuckets (startSec minutes : Rat) : Fin 24 → Rat :=
  bucketLoop (loopFuel (startSec + minutes * 60) startSec) (startSec + minutes * 60) startSec
    (fun _ => 0)

/-- Length of `[a, b) ∩ [3600k, 3600(k+1))`, clamped at zero. -/
def hourWindowOverlap (a b : Rat) (k : Int) : Rat :=
  max 0 (min b (((k + 1 : Int) : Rat) * 3600) - max a ((k : Rat) * 3600))

/-- Seconds of `[a, b)` spent in hour-of-day `h`: the summed overlap
with every hour window whose index is `h mod 24`. -/
def hourOverlap (a b : Rat) (h : Fin 24) : Rat :=
  if a < b then
    ∑ j ∈ Finset.range ((hourFloor b - hourFloor a).toNat + 1),
      (if hourOfInt (hourFloor a + j) = h then hourWindowOverlap a b (hourFloor a + j) else 0)
  else 0

/-- Processing one CSV row of the hourly chart (lines 398-418):
`row['date']` is read outside the `try` (a `KeyError` aborts the whole
plot); a date outside the seven-day window is skipped; everything in
the inner `try` (strptime, `float`, the while loop) is guarded by a
bare `except Exception`, so any failure just skips the row. -/
def hourlyRowStep (last7dates : List String) (hdr : List String)
    (hbd : String → Fin 24 → Rat) (r : List String) :
    Except PyErr (String → Fin 24 → Rat) :=
  if r = [] then .ok hbd
  else
    match dictRowGet hdr r "date" with
    | .error e => .error e
    | .ok none => .ok hbd
    | .ok (some d) =>
      if d ∈ last7dates then
        match dictRowGet hdr r "timestamp" with
        | .error _ => .ok hbd
        | .ok tOpt =>
          match parseStart? d (tOpt.getD "None") with
          | none => .ok hbd
          | some startN =>
            match dictRowGet hdr r "minutes" with
            | .error _ => .ok hbd
            | .ok mc =>
              match pyFloatCell mc with
              | .error _ => .ok hbd
              | .ok m =>
                .ok (Function.update hbd d
                  (bucketLoop (loopFuel ((startN : Rat) + m * 60) (startN : Rat))
                    ((startN : Rat) + m * 60) (startN : Rat) (hbd d)))
      else .ok hbd

/-- The full `hourly_by_day` accumulation over the log file: every date
of the window starts at `[0] * 24`. -/
def hourlyByDay (last7dates : List String) (f : CSVFile) :
    Except PyErr (String → Fin 24 → Rat) :=
  f.rows.foldlM (hourlyRowStep last7dates f.header) (fun _ _ => 0)

/-- `hourly_totals` (lines 420-422): per hour, the sum over the window
dates divided by the number of window dates (`0` for an empty window). -/
def hourlyTotals (last7dates : List String) (hbd : String → Fin 24 → Rat) (h : Fin 24) : Rat :=
  if last7dates = [] then 0
  else (last7dates.map (fun d => hbd d h)).sum / (last7dates.length : Rat)

/-- `sorted(data.keys())[-7:]` (line 392): the last seven of the
lexicographically sorted distinct dates. -/
def last7 (dates : List String) : List String :=
  let sorted := dates.insertionSort (· ≤ ·)
  sorted.drop (sorted.length - 7)

/-! ## Reference sums used to state the aggregation claims -/

/-- The sum of the parsed minutes of the well-formed rows whose date
field equals `today` (the value C3 says `get_today_minutes` returns). -/
def todayRowSum (today : String) (hdr : List String) (rows : List (List String)) : Rat :=
  (rows.map (fun r =>
    if r = [] then 0
    else
      match dictRowGet hdr r "date" with
      | .ok (some d) =>
        if d = today then
          match dictRowGet hdr r "minutes" with
          | .ok c =>
            match pyFloatCell c with
            | .ok q => q
            | .error _ => 0
          | .error _ => 0
        else 0
      | _ => 0)).sum

/-- The minutes a single row contributes to the `(d, s)` entry of the
per-date, per-subject totals (zero for malformed or other rows). -/
def weekRowContrib (hdr : List String) (d s : Option String) (r : List String) : Rat :=
  if r = [] then 0
  else
    match dictRowGet hdr r "date", dictRowGet hdr r "subject", dictRowGet hdr r "minutes" with
    | .ok d', .ok s', .ok c =>
      if d = d' ∧ s = s' then
        match pyFloatCell c with
        | .ok q => q
        | .error _ => 0
      else 0
    | _, _, _ => 0

/-- The total minutes of the well-formed rows with date `d` and subject
`s` (the entry C2 says the weekly mapping holds). -/
def weekRowSum (hdr : List String) (rows : List (List String)) (d s : Option String) : Rat :=
  (rows.map (weekRowContrib hdr d s)).sum

/-! ## Concrete sample data used by witnesses and counterexamples -/

/-- The header `CSVLogger.__init__` writes. -/
def sampleHdr : List String := ["date", "timestamp", "subject", "minutes"]

/-- A well-formed log file: two rows on 2024-01-01 (30 and 25.5
minutes) and one row on another date. -/
def sampleFile : CSVFile :=
  ⟨sampleHdr,
   [["2024-01-01", "10:00:00", "Math", "30"],
    ["2024-01-02", "10:00:00", "Math", "99"],
    ["2024-01-01", "11:00:00", "Math", "25.5"]]⟩

/-- A log file whose second row physically lacks the minutes cell
(three cells against a four-column header). -/
def shortRowFile : CSVFile :=
  ⟨sampleHdr,
   [["2024-01-01", "10:00:00", "Math", "30"],
    ["2024-01-01", "10:30:00", "Math"]]⟩

/-- The eight distinct dates of `wideFile`. -/
def wideDates : List String :=
  ["2024-01-01", "2024-01-02", "2024-01-03", "2024-01-04",
   "2024-01-05", "2024-01-06", "2024-01-07", "2024-01-08"]

/-- A log file spanning eight distinct dates, one row each. -/
def wideFile : CSVFile :=
  ⟨sampleHdr, wideDates.map (fun d => [d, "10:00:00", "Math", "10"])⟩


/-! ## Association-list dictionary lemmas -/

theorem alistGet_updD {α β : Type} [DecidableEq α] (m : List (α × β)) (k k' : α)
    (f : β → β) (dflt : β) :
    alistGet (updD m k f dflt) k' =
      if k' = k then some (f ((alistGet m k).getD dflt)) else alistGet m k' := by
  induction m with
  | nil =>
    by_cases h : k' = k <;> simp [updD, alistGet, h]
  | cons p t ih =>
    obtain ⟨k0, v⟩ := p
    by_cases hk : k = k0
    · subst hk
      by_cases h : k' = k <;> simp [updD, alistGet, h]
    · by_cases h : k' = k0
      · subst h
        simp [updD, alistGet, hk, Ne.symm hk, ih]
      · simp [updD, alistGet, hk, h, ih]

theorem valueAt_updD (data : WeekData) (dOpt sOpt : Option String) (q : Rat)
    (d s : Option String) :
    valueAt (updD data dOpt (fun inner => updD inner sOpt (· + q) 0) []) d s =
      valueAt data d s + (if d = dOpt ∧ s = sOpt then q else 0) := by
  unfold valueAt
  rw [alistGet_updD]
  by_cases hd : d = dOpt
  · subst hd
    rw [if_pos rfl]
    simp only [Option.getD_some, true_and]
    rw [alistGet_updD]
    by_cases hs : s = sOpt
    · subst hs
      simp
    · simp [hs]
  · simp [hd]

theorem valueAt_nil (d s : Option String) : valueAt [] d s = 0 := by
  simp [valueAt, alistGet]

/-! ## Characterizing the aggregation scans -/

theorem dictRowGet_of_idx (hdr r : List String) (k : String) (i : Nat)
    (hi : lastIdxOf hdr k = some i) : dictRowGet hdr r k = .ok r[i]? := by
  simp [dictRowGet, hi]

theorem dictRowGet_of_none (hdr r : List String) (k : String)
    (hnone : lastIdxOf hdr k = none) : dictRowGet hdr r k = .error .keyError := by
  simp [dictRowGet, hnone]

theorem todayScan_noDate (today : String) (hdr : List String)
    (hnone : lastIdxOf hdr "date" = none) (rows : List (List String)) :
    ∀ total : Rat, todayScan today hdr rows total = .ok total ∨
      todayScan today hdr rows total = .error .keyError := by
  induction rows with
  | nil =>
    intro total
    left
    rfl
  | cons r rs ih =>
    intro total
    by_cases hr : r = []
    · rw [todayScan, if_pos hr]
      exact ih total
    · right
      rw [todayScan, if_neg hr, dictRowGet_of_none hdr r "date" hnone]

theorem todayRowSum_noDate (today : String) (hdr : List String)
    (hnone : lastIdxOf hdr "date" = none) (rows : List (List String)) :
    todayRowSum today hdr rows = 0 := by
  apply List.sum_eq_zero
  intro x hx
  simp only [List.mem_map] at hx
  obtain ⟨r, _, rfl⟩ := hx
  by_cases hr : r = []
  · simp [hr]
  · simp [hr, dictRowGet_of_none hdr r "date" hnone]

theorem todayScan_eq (today : String) (hdr : List String) (i : Nat)
    (hi : lastIdxOf hdr "date" = some i) (rows : List (List String))
    (H : ∀ r ∈ rows, r ≠ [] → dictRowGet hdr r "date" = .ok (some today) →
      dictRowGet hdr r "minutes" ≠ .ok none) :
    ∀ total : Rat, todayScan today hdr rows total = .ok (total + todayRowSum today hdr rows) := by
  induction rows with
  | nil =>
    intro total
    simp [todayScan, todayRowSum]
  | cons r rs ih =>
    intro total
    have Hrs : ∀ r' ∈ rs, r' ≠ [] → dictRowGet hdr r' "date" = .ok (some today) →
        dictRowGet hdr r' "minutes" ≠ .ok none := fun r' h => H r' (List.mem_cons_of_mem r h)
    have hsum : todayRowSum today hdr (r :: rs) =
        (if r = [] then 0
         else
           match dictRowGet hdr r "date" with
           | .ok (some d) =>
             if d = today then
               match dictRowGet hdr r "minutes" with
               | .ok c =>
                 match pyFloatCell c with
                 | .ok q => q
                 | .error _ => 0
               | .error _ => 0
             else 0
           | _ => 0) + todayRowSum today hdr rs := by
      simp [todayRowSum]
    by_cases hr : r = []
    · rw [todayScan, if_pos hr, hsum, if_pos hr, zero_add]
      exact ih Hrs total
    · have hdg : dictRowGet hdr r "date" = .ok r[i]? := dictRowGet_of_idx hdr r "date" i hi
      cases hv : r[i]? with
      | none =>
        rw [todayScan, if_neg hr, hdg, hv, hsum, if_neg hr, hdg, hv]
        simp [ih Hrs]
      | some d =>
        by_cases hdt : d = today
        · subst hdt
          cases hm : dictRowGet hdr r "minutes" with
          | error e =>
            rw [todayScan, if_neg hr, hdg, hv, hsum, if_neg hr, hdg, hv, hm]
            simp [ih Hrs]
          | ok c =>
            cases c with
            | none =>
              exact absurd hm (H r (List.mem_cons_self r rs) hr (by rw [hdg, hv]))
            | some str =>
              cases hq : pyFloat? str with
              | some q =>
                have hpc : pyFloatCell (some str) = .ok q := by simp [pyFloatCell, hq]
                rw [todayScan, if_neg hr, hdg, hv, hsum, if_neg hr, hdg, hv, hm]
                simp [hpc, ih Hrs, add_assoc]
              | none =>
                have hpc : pyFloatCell (some str) = .error .valueError := by
                  simp [pyFloatCell, hq]
                rw [todayScan, if_neg hr, hdg, hv, hsum, if_neg hr, hdg, hv, hm]
                simp [hpc, ih Hrs]
        · rw [todayScan, if_neg hr, hdg, hv, hsum, if_neg hr, hdg, hv]
          simp [hdt, ih Hrs]

theorem weekRowSum_cons (hdr : List String) (r : List String) (rs : List (List String))
    (d s : Option String) :
    weekRowSum hdr (r :: rs) d s = weekRowContrib hdr d s r + weekRowSum hdr rs d s := by
  simp [weekRowSum]

theorem weekScan_eq (hdr : List String) (rows : List (List String))
    (H : ∀ r ∈ rows, r ≠ [] → dictRowGet hdr r "minutes" ≠ .ok none) :
    ∀ data : WeekData, ∃ res : WeekData, weekScan hdr rows data = .ok res ∧
      ∀ d s, valueAt res d s = valueAt data d s + weekRowSum hdr rows d s := by
  induction rows with
  | nil =>
    intro data
    exact ⟨data, rfl, fun d s => by simp [weekRowSum]⟩
  | cons r rs ih =>
    have Hrs : ∀ r' ∈ rs, r' ≠ [] → dictRowGet hdr r' "minutes" ≠ .ok none :=
      fun r' h => H r' (List.mem_cons_of_mem r h)
    intro data
    by_cases hr : r = []
    · obtain ⟨res, hscan, hval⟩ := ih Hrs data
      refine ⟨res, ?_, ?_⟩
      · rw [weekScan, if_pos hr]
        exact hscan
      · intro d s
        rw [hval, weekRowSum_cons]
        simp [weekRowContrib, hr]
    · cases hd : dictRowGet hdr r "date" with
      | error e =>
        obtain ⟨res, hscan, hval⟩ := ih Hrs data
        refine ⟨res, ?_, ?_⟩
        · rw [weekScan, if_neg hr, hd]
          exact hscan
        · intro d s
          rw [hval, weekRowSum_cons]
          simp [weekRowContrib, hr, hd]
      | ok dOpt =>
        cases hs2 : dictRowGet hdr r "subject" with
        | error e =>
          obtain ⟨res, hscan, hval⟩ := ih Hrs data
          refine ⟨res, ?_, ?_⟩
          · rw [weekScan, if_neg hr, hd, hs2]
            exact hscan
          · intro d s
            rw [hval, weekRowSum_cons]
            simp [weekRowContrib, hr, hd, hs2]
        | ok sOpt =>
          cases hm : dictRowGet hdr r "minutes" with
          | error e =>
            obtain ⟨res, hscan, hval⟩ := ih Hrs data
            refine ⟨res, ?_, ?_⟩
            · rw [weekScan, if_neg hr, hd, hs2, hm]
              exact hscan
            · intro d s
              rw [hval, weekRowSum_cons]
              simp [weekRowContrib, hr, hd, hs2, hm]
          | ok c =>
            cases c with
            | none =>
              exact absurd hm (H r (List.mem_cons_self r rs) hr)
            | some str =>
              cases hq : pyFloat? str with
              | some q =>
                have hpc : pyFloatCell (some str) = .ok q := by simp [pyFloatCell, hq]
                obtain ⟨res, hscan, hval⟩ :=
                  ih Hrs (updD data dOpt (fun inner => updD inner sOpt (· + q) 0) [])
                refine ⟨res, ?_, ?_⟩
                · rw [weekScan, if_neg hr, hd, hs2, hm]
                  simp only [hpc]
                  exact hscan
                · intro d s
                  rw [hval, valueAt_updD, weekRowSum_cons]
                  have hcontrib : weekRowContrib hdr d s r =
                      if d = dOpt ∧ s = sOpt then q else 0 := by
                    simp [weekRowContrib, hr, hd, hs2, hm, hpc]
                  rw [hcontrib, add_assoc]
              | none =>
                have hpc : pyFloatCell (some str) = .error .valueError := by
                  simp [pyFloatCell, hq]
                obtain ⟨res, hscan, hval⟩ := ih Hrs data
                refine ⟨res, ?_, ?_⟩
                · rw [weekScan, if_neg hr, hd, hs2, hm]
                  simp only [hpc]
                  exact hscan
                · intro d s
                  rw [hval, weekRowSum_cons]
                  simp [weekRowContrib, hr, hd, hs2, hm, hpc]

theorem allScan_eq_weekScan (hdr : List String) :
    ∀ rows data, allScan hdr rows data = weekScan hdr rows data := by
  intro rows
  induction rows with
  | nil =>
    intro data
    rfl
  | cons r rs ih =>
    intro data
    rw [allScan, weekScan]
    simp only [ih]

/-! ## Arithmetic facts about the hour windows -/

theorem hourFloor_intCast_mul (k : Int) : hourFloor ((k : Rat) * 3600) = k := by
  unfold hourFloor
  rw [mul_div_cancel_right₀ _ (by norm_num : (3600 : Rat) ≠ 0), Int.floor_intCast]

theorem hourWindow_base_le (t : Rat) : ((hourFloor t : Int) : Rat) * 3600 ≤ t := by
  have h := Int.floor_le (t / 3600)
  exact (le_div_iff₀ (by norm_num : (0 : Rat) < 3600)).mp h

theorem lt_nextHourTime (t : Rat) : t < nextHourTime t := by
  have h := Int.lt_floor_add_one (t / 3600)
  have h2 := (div_lt_iff₀ (by norm_num : (0 : Rat) < 3600)).mp h
  unfold nextHourTime hourFloor
  push_cast
  push_cast at h2
  linarith

theorem hourFloor_nextHourTime (t : Rat) : hourFloor (nextHourTime t) = hourFloor t + 1 :=
  hourFloor_intCast_mul _

theorem hourFloor_mono {a b : Rat} (h : a ≤ b) : hourFloor a ≤ hourFloor b :=
  Int.floor_le_floor ((div_le_div_iff_of_pos_right (by norm_num : (0 : Rat) < 3600)).mpr h)

theorem bucketLoop_stop (fuel : Nat) (endT t : Rat) (acc : Fin 24 → Rat) (h : ¬t < endT) :
    bucketLoop fuel endT t acc = acc := by
  cases fuel with
  | zero => rfl
  | succ n => rw [bucketLoop, if_neg h]


theorem hourOverlap_of_le_next (a b : Rat) (hab : a < b) (hbn : b ≤ nextHourTime a)
    (h : Fin 24) : hourOverlap a b h = if hourOf a = h then b - a else 0 := by
  have hfa_le : hourFloor a ≤ hourFloor b := hourFloor_mono hab.le
  have hfb_le : hourFloor b ≤ hourFloor a + 1 := by
    have := hourFloor_mono hbn
    rwa [hourFloor_nextHourTime] at this
  have hwin0 : hourWindowOverlap a b (hourFloor a) = b - a := by
    unfold hourWindowOverlap
    have hb' : b ≤ ((hourFloor a + 1 : Int) : Rat) * 3600 := by
      unfold nextHourTime at hbn
      exact hbn
    rw [min_eq_left hb', max_eq_left (hourWindow_base_le a),
      max_eq_right (sub_nonneg.mpr hab.le)]
  rcases (by omega : hourFloor b = hourFloor a ∨ hourFloor b = hourFloor a + 1) with h0 | h1
  · unfold hourOverlap
    rw [if_pos hab, h0, sub_self, Int.toNat_zero, zero_add, Finset.sum_range_one]
    norm_num [hourOf, hwin0]
  · have hnext_eq : nextHourTime a = b := by
      have h2 : ((hourFloor b : Int) : Rat) * 3600 ≤ b := hourWindow_base_le b
      rw [h1] at h2
      exact le_antisymm h2 hbn
    have hwin1 : hourWindowOverlap a b (hourFloor a + 1) = 0 := by
      unfold hourWindowOverlap
      have hma : max a (((hourFloor a + 1 : Int) : Rat) * 3600) =
          ((hourFloor a + 1 : Int) : Rat) * 3600 :=
        max_eq_right (le_of_lt (lt_nextHourTime a))
      have hble : b ≤ ((hourFloor a + 1 + 1 : Int) : Rat) * 3600 := by
        rw [← hnext_eq]
        unfold nextHourTime
        push_cast
        linarith
      rw [min_eq_left hble, hma, ← hnext_eq]
      unfold nextHourTime
      simp
    unfold hourOverlap
    rw [if_pos hab, h1]
    have hcount : (hourFloor a + 1 - hourFloor a).toNat + 1 = 2 := by omega
    rw [hcount, Finset.sum_range_succ, Finset.sum_range_one]
    norm_num [hourOf, hwin0, hwin1]

theorem hourOverlap_split (a b : Rat) (hab : a < b) (hnb : nextHourTime a < b) (h : Fin 24) :
    hourOverlap a b h =
      (if hourOf a = h then nextHourTime a - a else 0) + hourOverlap (nextHourTime a) b h := by
  have hfban : hourFloor a + 1 ≤ hourFloor b := by
    have := hourFloor_mono hnb.le
    rwa [hourFloor_nextHourTime] at this
  have hwin0 : hourWindowOverlap a b (hourFloor a) = nextHourTime a - a := by
    unfold hourWindowOverlap
    have hmin : min b (((hourFloor a + 1 : Int) : Rat) * 3600) = nextHourTime a :=
      min_eq_right (le_of_lt hnb)
    rw [hmin, max_eq_left (hourWindow_base_le a),
      max_eq_right (sub_nonneg.mpr (le_of_lt (lt_nextHourTime a)))]
  have hwinj : ∀ k : Int, hourFloor a + 1 ≤ k →
      hourWindowOverlap a b k = hourWindowOverlap (nextHourTime a) b k := by
    intro k hk
    unfold hourWindowOverlap
    have hc : ((hourFloor a + 1 : Int) : Rat) ≤ (k : Rat) := by exact_mod_cast hk
    have hk3600 : nextHourTime a ≤ (k : Rat) * 3600 := by
      unfold nextHourTime
      nlinarith
    rw [max_eq_right (le_trans (le_of_lt (lt_nextHourTime a)) hk3600), max_eq_right hk3600]
  unfold hourOverlap
  rw [if_pos hab, if_pos hnb]
  have hcount : (hourFloor b - hourFloor a).toNat =
      (hourFloor b - hourFloor (nextHourTime a)).toNat + 1 := by
    rw [hourFloor_nextHourTime]
    omega
  rw [hcount, Finset.sum_range_succ', add_comm]
  congr 1
  · norm_num [hourOf, hwin0]
  · apply Finset.sum_congr rfl
    intro j hj
    have hidx : hourFloor a + ((j + 1 : Nat) : Int) = hourFloor (nextHourTime a) + (j : Int) := by
      rw [hourFloor_nextHourTime]
      push_cast
      ring
    rw [hidx]
    by_cases hcond : hourOfInt (hourFloor (nextHourTime a) + (j : Int)) = h
    · rw [if_pos hcond, if_pos hcond]
      apply hwinj
      rw [hourFloor_nextHourTime]
      omega
    · rw [if_neg hcond, if_neg hcond]

theorem bucketLoop_spec : ∀ (fuel : Nat) (endT current : Rat) (acc : Fin 24 → Rat),
    loopFuel endT current ≤ fuel →
    ∀ h, bucketLoop fuel endT current acc h = acc h + hourOverlap current endT h / 60 := by
  intro fuel
  induction fuel with
  | zero =>
    intro endT current acc hfuel h
    simp [loopFuel] at hfuel
  | succ n ih =>
    intro endT current acc hfuel h
    by_cases hlt : current < endT
    · rw [bucketLoop, if_pos hlt]
      by_cases hnext : endT ≤ nextHourTime current
      · rw [min_eq_left hnext, bucketLoop_stop n endT endT _ (lt_irrefl endT),
          hourOverlap_of_le_next current endT hlt hnext h, Function.update_apply]
        by_cases hh : h = hourOf current
        · subst hh
          rw [if_pos rfl, if_pos rfl]
        · rw [if_neg hh, if_neg (fun hc => hh hc.symm)]
          simp
      · push_neg at hnext
        rw [min_eq_right (le_of_lt hnext)]
        have hfuel' : loopFuel endT (nextHourTime current) ≤ n := by
          have h1 : hourFloor current + 1 ≤ hourFloor endT := by
            have := hourFloor_mono (le_of_lt hnext)
            rwa [hourFloor_nextHourTime] at this
          unfold loopFuel at hfuel ⊢
          rw [hourFloor_nextHourTime]
          omega
        rw [ih endT (nextHourTime current) _ hfuel' h, Function.update_apply,
          hourOverlap_split current endT hlt hnext h]
        by_cases hh : h = hourOf current
        · subst hh
          rw [if_pos rfl, if_pos rfl]
          ring
        · rw [if_neg hh, if_neg (fun hc => hh hc.symm)]
          ring
    · rw [bucketLoop, if_neg hlt, hourOverlap, if_neg hlt]
      simp

theorem sum_update_add (acc : Fin 24 → Rat) (i : Fin 24) (x : Rat) :
    ∑ h : Fin 24, Function.update acc i (acc i + x) h = (∑ h : Fin 24, acc h) + x := by
  rw [Finset.sum_update_of_mem (Finset.mem_univ i)]
  rw [show Finset.univ \ {i} = Finset.univ.erase i from by
    rw [Finset.sdiff_singleton_eq_erase]]
  rw [← Finset.add_sum_erase Finset.univ acc (Finset.mem_univ i)]
  ring

theorem bucketLoop_sum : ∀ (fuel : Nat) (endT current : Rat) (acc : Fin 24 → Rat),
    loopFuel endT current ≤ fuel →
    ∑ h : Fin 24, bucketLoop fuel endT current acc h =
      (∑ h : Fin 24, acc h) + (if current < endT then (endT - current) / 60 else 0) := by
  intro fuel
  induction fuel with
  | zero =>
    intro endT current acc hfuel
    simp [loopFuel] at hfuel
  | succ n ih =>
    intro endT current acc hfuel
    by_cases hlt : current < endT
    · rw [bucketLoop, if_pos hlt, if_pos hlt]
      by_cases hnext : endT ≤ nextHourTime current
      · rw [min_eq_left hnext, bucketLoop_stop n endT endT _ (lt_irrefl endT), sum_update_add]
      · push_neg at hnext
        rw [min_eq_right (le_of_lt hnext)]
        have hfuel' : loopFuel endT (nextHourTime current) ≤ n := by
          have h1 : hourFloor current + 1 ≤ hourFloor endT := by
            have := hourFloor_mono (le_of_lt hnext)
            rwa [hourFloor_nextHourTime] at this
          unfold loopFuel at hfuel ⊢
          rw [hourFloor_nextHourTime]
          omega
        rw [ih endT (nextHourTime current) _ hfuel', sum_update_add, if_pos hnext]
        ring
    · rw [bucketLoop_stop _ _ _ _ hlt, if_neg hlt, add_zero]

theorem sessionBuckets_eq_overlap (startSec minutes : Rat) (h : Fin 24) :
    sessionBuckets startSec minutes h =
      hourOverlap startSec (startSec + minutes * 60) h / 60 := by
  unfold sessionBuckets
  rw [bucketLoop_spec _ _ _ _ (le_refl _) h]
  simp

theorem sessionBuckets_total (startSec minutes : Rat) (hm : 0 ≤ minutes) :
    ∑ h : Fin 24, sessionBuckets startSec minutes h = minutes := by
  unfold sessionBuckets
  rw [bucketLoop_sum _ _ _ _ (le_refl _)]
  rcases lt_or_eq_of_le hm with h0 | h0
  · rw [if_pos (by linarith : startSec < startSec + minutes * 60)]
    simp
  · rw [← h0]
    norm_num

theorem bucketLoop_add_sessionBuckets (endT startSec : Rat) (minutes : Rat)
    (acc : Fin 24 → Rat) (hE : endT = startSec + minutes * 60) (h : Fin 24) :
    bucketLoop (loopFuel endT startSec) endT startSec acc h =
      acc h + sessionBuckets startSec minutes h := by
  subst hE
  rw [bucketLoop_spec _ _ _ _ (le_refl _) h, sessionBuckets_eq_overlap]

/-! ## The claims -/

/-- Claim C9: `get_weekly_data` and `get_all_data` are extensionally
equal — for every log file (including a missing one) they return the
same mapping of dates to per-subject minute totals over all rows;
neither restricts to a seven-day window. -/
theorem c9_weekly_eq_all : ∀ file : Option CSVFile, getWeeklyData file = getAllData file := by
  intro file
  cases file with
  | none => rfl
  | some f => rw [getWeeklyData, getAllData, allScan_eq_weekScan]

/-- Claim C2, counterexample: `get_weekly_data` does not restrict to
the seven most recent distinct dates.  On a log with eight distinct
dates the result keeps all eight date keys, and `"2024-01-01"` is a key
even though it is not among the seven largest dates
(`sorted(keys)[-7:]`). -/
theorem c2_counterexample :
    (getWeeklyData (some wideFile)).map Prod.fst = wideDates.map some ∧
    (last7 wideDates).length = 7 ∧
    "2024-01-01" ∉ last7 wideDates := by
  refine ⟨?_, ?_, ?_⟩ <;> with_unfolding_all decide

/-- Claim C2 (amended): `get_weekly_data` returns the per-date,
per-subject minute totals over *all* distinct dates present in the log
(the seven-date restriction happens downstream in the plot functions):
provided no nonblank row lacks its minutes cell (which would abort the
scan with an uncaught `TypeError`), each `(date, subject)` entry equals
the sum of the parsed minutes of that date's well-formed rows for that
subject. -/
theorem c2_weekly_all_dates (f : CSVFile)
    (H : ∀ r ∈ f.rows, r ≠ [] → dictRowGet f.header r "minutes" ≠ .ok none)
    (d s : Option String) :
    valueAt (getWeeklyData (some f)) d s = weekRowSum f.header f.rows d s := by
  obtain ⟨res, hscan, hval⟩ := weekScan_eq f.header f.rows H []
  have hred : valueAt (getWeeklyData (some f)) d s = valueAt res d s := by
    rw [getWeeklyData, hscan]
  rw [hred, hval d s, valueAt_nil, zero_add]

/-- Witness for C2 (amended) at a concrete three-row log. -/
theorem c2_weekly_all_dates_witness :
    (∀ r ∈ sampleFile.rows, r ≠ [] →
      dictRowGet sampleFile.header r "minutes" ≠ .ok none) ∧
    valueAt (getWeeklyData (some sampleFile)) (some "2024-01-01") (some "Math") =
      weekRowSum sampleFile.header sampleFile.rows (some "2024-01-01") (some "Math") :=
  ⟨by with_unfolding_all decide,
   c2_weekly_all_dates sampleFile (by with_unfolding_all decide)
     (some "2024-01-01") (some "Math")⟩

/-- Claim C3, counterexample: on a log whose second 2024-01-01 row
lacks the minutes cell, the single well-formed today row sums to 30,
but `float(None)` raises an uncaught `TypeError`, so
`get_today_minutes` returns 0 — not the sum of the well-formed today
rows. -/
theorem c3_counterexample :
    todayRowSum "2024-01-01" shortRowFile.header shortRowFile.rows = 30 ∧
    getTodayMinutes "2024-01-01" (some shortRowFile) = 0 ∧
    getTodayMinutes "2024-01-01" (some shortRowFile) ≠
      todayRowSum "2024-01-01" shortRowFile.header shortRowFile.rows := by
  refine ⟨?_, ?_, ?_⟩ <;> with_unfolding_all decide

/-- Claim C3 (amended): provided no today-dated row lacks its minutes
cell (such a row aborts the scan with an uncaught `TypeError` and the
function returns 0), `get_today_minutes` returns exactly the sum of the
minutes of the well-formed rows whose date equals today; rows with
other dates contribute nothing. -/
theorem c3_today_sum (today : String) (f : CSVFile)
    (H : ∀ r ∈ f.rows, r ≠ [] → dictRowGet f.header r "date" = .ok (some today) →
      dictRowGet f.header r "minutes" ≠ .ok none) :
    getTodayMinutes today (some f) = todayRowSum today f.header f.rows := by
  cases hidx : lastIdxOf f.header "date" with
  | none =>
    rw [todayRowSum_noDate today f.header hidx f.rows]
    rcases todayScan_noDate today f.header hidx f.rows 0 with h | h
    · rw [getTodayMinutes, h]
    · rw [getTodayMinutes, h]
  | some i =>
    have hs := todayScan_eq today f.header i hidx f.rows H 0
    rw [getTodayMinutes, hs]
    exact zero_add _

/-- Witness for C3 (amended) at a concrete three-row log: the two
2024-01-01 rows sum to 55.5. -/
theorem c3_today_sum_witness :
    (∀ r ∈ sampleFile.rows, r ≠ [] →
      dictRowGet sampleFile.header r "date" = .ok (some "2024-01-01") →
      dictRowGet sampleFile.header r "minutes" ≠ .ok none) ∧
    getTodayMinutes "2024-01-01" (some sampleFile) =
      todayRowSum "2024-01-01" sampleFile.header sampleFile.rows ∧
    todayRowSum "2024-01-01" sampleFile.header sampleFile.rows = 111 / 2 :=
  ⟨by with_unfolding_all decide,
   c3_today_sum "2024-01-01" sampleFile (by with_unfolding_all decide),
   by with_unfolding_all decide⟩

/-- Claim C4, failing input: a data row with fewer cells than the
header.  `csv.DictReader` supplies `None` for the missing minutes cell,
`float(None)` raises `TypeError`, which `except (ValueError, KeyError)`
does not catch — the whole read aborts and returns its default (0 /
empty mapping), discarding the well-formed rows, instead of skipping
the malformed row as the claim (and the code's own "Skipping invalid
row" warning) states. -/
theorem c4_malformed_row_aborts :
    getTodayMinutes "2024-01-01" (some shortRowFile) = 0 ∧
    getWeeklyData (some shortRowFile) = [] ∧
    getAllData (some shortRowFile) = [] ∧
    todayRowSum "2024-01-01" shortRowFile.header shortRowFile.rows = 30 ∧
    weekRowSum shortRowFile.header shortRowFile.rows (some "2024-01-01") (some "Math") = 30 := by
  refine ⟨?_, ?_, ?_, ?_, ?_⟩ <;> with_unfolding_all decide

/-- Claim C5: when a backing file does not exist every read falls back
to its default without raising — `get_today_minutes` returns 0,
`get_weekly_data` and `get_all_data` return an empty mapping, and
`load_config` leaves `subjects = DEFAULT_SUBJECTS`, `daily_goal = 690`
and `theme = "system"`. -/
theorem c5_missing_file_defaults :
    (∀ today : String, getTodayMinutes today none = 0) ∧
    getWeeklyData none = [] ∧
    getAllData none = [] ∧
    load_config none = defaultConfig ∧
    defaultConfig.subjects = DEFAULT_SUBJECTS ∧
    defaultConfig.daily_goal = Json.num DEFAULT_DAILY_GOAL ∧
    defaultConfig.theme = Json.str "system" ∧
    DEFAULT_DAILY_GOAL = 690 :=
  ⟨fun _ => rfl, rfl, rfl, rfl, rfl, rfl, rfl, rfl⟩

/-- Claim C6: `CSVLogger.log` appends exactly one row
`[date, time-of-day, subject, minutes rounded to two decimals]` at the
end of the log and leaves the header and every previously present row
unchanged. -/
theorem c6_log_append (f : CSVFile) (dateS timeS subject : String) (minutes : Rat) :
    (CSVLogger.log f dateS timeS subject minutes).header = f.header ∧
    (CSVLogger.log f dateS timeS subject minutes).rows =
      f.rows ++ [[dateS, timeS, subject, twoDecString (roundHalfEven2 minutes)]] ∧
    (CSVLogger.log f dateS timeS subject minutes).rows.length = f.rows.length + 1 ∧
    (∀ i, i < f.rows.length →
      (CSVLogger.log f dateS timeS subject minutes).rows[i]? = f.rows[i]?) := by
  refine ⟨rfl, rfl, by simp [CSVLogger.log], ?_⟩
  intro i hi
  simp [CSVLogger.log, List.getElem?_append, hi]

/-- Witness for C6: logging a 12.345-minute session onto a one-row log
leaves row 0 unchanged and appends the rounded row. -/
theorem c6_log_append_witness :
    0 < sampleFile.rows.length ∧
    (CSVLogger.log sampleFile "2024-01-02" "08:00:00" "Math" (12.345 : Rat)).rows[0]? =
      some ["2024-01-01", "10:00:00", "Math", "30"] ∧
    (CSVLogger.log sampleFile "2024-01-02" "08:00:00" "Math" (12.345 : Rat)).rows.getLast? =
      some ["2024-01-02", "08:00:00", "Math", "12.34"] := by
  refine ⟨by norm_num [sampleFile, sampleHdr], ?_, ?_⟩
  · rw [(c6_log_append sampleFile "2024-01-02" "08:00:00" "Math" (12.345 : Rat)).2.2.2 0
      (by norm_num [sampleFile, sampleHdr])]
    with_unfolding_all decide
  · with_unfolding_all decide

/-- Claim C7: all three config keys are optional — a present key fills
its field with the stored value, an absent key leaves the default
(`DEFAULT_SUBJECTS`, `DEFAULT_DAILY_GOAL = 690`, `"system"`), and a
JSON value that is not an object resets all three fields to these
defaults. -/
theorem c7_config_optional_keys (members : List (String × Json)) (j : Json) :
    (∀ v, jGet members "subjects" = some v →
      (load_config (some (some (.obj members)))).subjects = v) ∧
    (jGet members "subjects" = none →
      (load_config (some (some (.obj members)))).subjects = DEFAULT_SUBJECTS) ∧
    (∀ v, jGet members "daily_goal" = some v →
      (load_config (some (some (.obj members)))).daily_goal = v) ∧
    (jGet members "daily_goal" = none →
      (load_config (some (some (.obj members)))).daily_goal = Json.num DEFAULT_DAILY_GOAL) ∧
    (∀ v, jGet members "theme" = some v →
      (load_config (some (some (.obj members)))).theme = v) ∧
    (jGet members "theme" = none →
      (load_config (some (some (.obj members)))).theme = Json.str "system") ∧
    ((∀ ms, j ≠ Json.obj ms) → load_config (some (some j)) = defaultConfig) := by
  refine ⟨?_, ?_, ?_, ?_, ?_, ?_, ?_⟩
  · intro v hv
    simp [load_config, hv]
  · intro hv
    simp [load_config, hv]
  · intro v hv
    simp [load_config, hv]
  · intro hv
    simp [load_config, hv]
  · intro v hv
    simp [load_config, hv]
  · intro hv
    simp [load_config, hv]
  · intro hj
    cases j with
    | obj ms => exact absurd rfl (hj ms)
    | null => rfl
    | bool b => rfl
    | num q => rfl
    | str s => rfl
    | arr elems => rfl

/-- Witness for C7 at a config holding only `daily_goal`, and at the
non-object JSON value `3`. -/
theorem c7_config_optional_keys_witness :
    jGet [("daily_goal", Json.num 500)] "daily_goal" = some (Json.num 500) ∧
    (load_config (some (some (.obj [("daily_goal", Json.num 500)])))).daily_goal =
      Json.num 500 ∧
    jGet [("daily_goal", Json.num 500)] "subjects" = none ∧
    (load_config (some (some (.obj [("daily_goal", Json.num 500)])))).subjects =
      DEFAULT_SUBJECTS ∧
    load_config (some (some (Json.num 3))) = defaultConfig :=
  ⟨rfl,
   (c7_config_optional_keys [("daily_goal", Json.num 500)] (Json.num 3)).2.2.1
     (Json.num 500) rfl,
   rfl,
   (c7_config_optional_keys [("daily_goal", Json.num 500)] (Json.num 3)).2.1 rfl,
   (c7_config_optional_keys [("daily_goal", Json.num 500)] (Json.num 3)).2.2.2.2.2.2
     (fun _ h => Json.noConfusion h)⟩

/-- Claim C8, counterexample: with `timer_running` already false but a
callback still armed (exactly the state `toggle_timer`'s pause branch
leaves behind), the next tick of `update_timer` still decrements
`remaining_time` from 5 to 4 — so it is not true that once
`timer_running` is false no subsequent tick decrements `remaining_time`. -/
theorem c8_counterexample :
    (⟨false, 5, true⟩ : TimerState).running = false ∧
    tickStep ⟨false, 5, true⟩ = ⟨false, 4, false⟩ ∧
    (tickStep ⟨false, 5, true⟩).remaining ≠ (⟨false, 5, true⟩ : TimerState).remaining := by
  refine ⟨rfl, ?_, ?_⟩ <;> decide

/-- Claim C8 (amended): a tick with `remaining_time > 0` decrements it
by exactly one and re-arms the callback exactly when `timer_running` is
true; once `timer_running` is false, at most the single already-armed
tick fires (it may still decrement once, does not re-arm, and every
later tick leaves the state unchanged); and `remaining_time` never
becomes negative from a state with `remaining_time ≥ 0`. -/
theorem c8_timer_tick (s : TimerState) (h0 : 0 ≤ s.remaining) :
    (s.armed = true → 0 < s.remaining →
      (tickStep s).remaining = s.remaining - 1 ∧ (tickStep s).armed = s.running) ∧
    (s.running = false → tickStep (tickStep s) = tickStep s) ∧
    (∀ n : Nat, 0 ≤ (tickStep^[n] s).remaining) := by
  have hstep : ∀ x : TimerState, 0 ≤ x.remaining → 0 ≤ (tickStep x).remaining := by
    intro x hx
    by_cases ha : x.armed
    · by_cases hr : x.remaining ≤ 0
      · simp [tickStep, update_timer, ha, hr]
        omega
      · simp [tickStep, update_timer, ha, hr]
        omega
    · simp [tickStep, ha]
      exact hx
  refine ⟨?_, ?_, ?_⟩
  · intro ha hr
    simp [tickStep, update_timer, ha, not_le.mpr hr]
  · intro hrun
    by_cases ha : s.armed
    · by_cases hr : s.remaining ≤ 0
      · simp [tickStep, update_timer, ha, hr]
      · simp [tickStep, update_timer, ha, hr, hrun]
    · simp [tickStep, ha]
  · intro n
    induction n with
    | zero => exact h0
    | succ k ih =>
      rw [Function.iterate_succ_apply']
      exact hstep _ ih

/-- Witness for C8 (amended) at the running armed state `(true, 10, true)`. -/
theorem c8_timer_tick_witness :
    (0 : Int) ≤ (⟨true, 10, true⟩ : TimerState).remaining ∧
    (tickStep ⟨true, 10, true⟩).remaining = 9 ∧
    (tickStep ⟨true, 10, true⟩).armed = true := by
  have h := (c8_timer_tick ⟨true, 10, true⟩ (by decide)).1 rfl (by decide)
  exact ⟨by decide, h.1.trans (by decide), h.2⟩

/-- Claim C10: `set_goal` changes the stored daily goal only on an
input parsing as a positive integer, caps the stored value at 1440 (an
input above 1440 stores exactly 1440), and on a non-numeric or
non-positive input leaves the goal unchanged with an error dialog as
the only effect. -/
theorem c10_set_goal (input : String) (goal : Int) :
    (pyInt? input = none → set_goal input goal = (goal, .error)) ∧
    (∀ n, pyInt? input = some n → n ≤ 0 → set_goal input goal = (goal, .error)) ∧
    (∀ n, pyInt? input = some n → 0 < n → n ≤ 1440 → set_goal input goal = (n, .info n)) ∧
    (∀ n, pyInt? input = some n → 1440 < n → set_goal input goal = (1440, .info 1440)) := by
  refine ⟨?_, ?_, ?_, ?_⟩
  · intro h
    simp [set_goal, h]
  · intro n hn hle
    simp [set_goal, hn, hle]
  · intro n hn hpos hle
    simp [set_goal, hn, not_le.mpr hpos, not_lt.mpr hle]
  · intro n hn hgt
    simp [set_goal, hn, hgt, show ¬n ≤ 0 by omega]

theorem c1_hourly_bucketing
    (last7dates hdr : List String) (r : List String)
    (d ts mcell : String) (startN : Nat) (m : Rat)
    (hne : r ≠ [])
    (hd : dictRowGet hdr r "date" = .ok (some d))
    (hmem : d ∈ last7dates)
    (ht : dictRowGet hdr r "timestamp" = .ok (some ts))
    (hstart : parseStart? d ts = some startN)
    (hmc : dictRowGet hdr r "minutes" = .ok (some mcell))
    (hm : pyFloat? mcell = some m)
    (hm0 : 0 ≤ m) :
    (∀ h, sessionBuckets (startN : Rat) m h =
        hourOverlap (startN : Rat) ((startN : Rat) + m * 60) h / 60) ∧
    (∑ h : Fin 24, sessionBuckets (startN : Rat) m h) = m ∧
    (∀ hbd : String → Fin 24 → Rat,
      hourlyRowStep last7dates hdr hbd r =
        .ok (Function.update hbd d (fun h => hbd d h + sessionBuckets (startN : Rat) m h))) ∧
    (∀ dates : List String, (last7 dates).length ≤ 7) ∧
    (last7dates ≠ [] → ∀ (hbd : String → Fin 24 → Rat) (h : Fin 24),
      hourlyTotals last7dates hbd h =
        (last7dates.map (fun d0 => hbd d0 h)).sum / (last7dates.length : Rat)) := by
  refine ⟨fun h => sessionBuckets_eq_overlap _ _ h, sessionBuckets_total _ _ hm0, ?_, ?_, ?_⟩
  · intro hbd
    have hpc : pyFloatCell (some mcell) = .ok m := by simp [pyFloatCell, hm]
    have hupd : bucketLoop (loopFuel ((startN : Rat) + m * 60) (startN : Rat))
        ((startN : Rat) + m * 60) (startN : Rat) (hbd d) =
        fun h => hbd d h + sessionBuckets (startN : Rat) m h :=
      funext (fun h => bucketLoop_add_sessionBuckets _ _ _ _ rfl h)
    simp only [hourlyRowStep, if_neg hne, hd, hmem, if_true, ht, Option.getD_some, hstart,
      hmc, hpc, hupd]
  · intro dates
    unfold last7
    simp only [List.length_drop]
    omega
  · intro hne2 hbd h
    unfold hourlyTotals
    rw [if_neg hne2]

theorem c1_hourly_bucketing_witness :
    (["2024-01-01", "09:30:00", "Math", "45"] : List String) ≠ [] ∧
    dictRowGet sampleHdr ["2024-01-01", "09:30:00", "Math", "45"] "date" =
      .ok (some "2024-01-01") ∧
    "2024-01-01" ∈ ["2024-01-01"] ∧
    dictRowGet sampleHdr ["2024-01-01", "09:30:00", "Math", "45"] "timestamp" =
      .ok (some "09:30:00") ∧
    parseStart? "2024-01-01" "09:30:00" = some 34200 ∧
    dictRowGet sampleHdr ["2024-01-01", "09:30:00", "Math", "45"] "minutes" =
      .ok (some "45") ∧
    pyFloat? "45" = some (45 : Rat) ∧
    (0 : Rat) ≤ 45 ∧
    ((∀ h, sessionBuckets ((34200 : Nat) : Rat) 45 h =
        hourOverlap ((34200 : Nat) : Rat) (((34200 : Nat) : Rat) + 45 * 60) h / 60) ∧
     (∑ h : Fin 24, sessionBuckets ((34200 : Nat) : Rat) 45 h) = 45 ∧
     (∀ hbd : String → Fin 24 → Rat,
       hourlyRowStep ["2024-01-01"] sampleHdr hbd ["2024-01-01", "09:30:00", "Math", "45"] =
         .ok (Function.update hbd "2024-01-01"
           (fun h => hbd "2024-01-01" h + sessionBuckets ((34200 : Nat) : Rat) 45 h))) ∧
     (∀ dates : List String, (last7 dates).length ≤ 7) ∧
     ((["2024-01-01"] : List String) ≠ [] → ∀ (hbd : String → Fin 24 → Rat) (h : Fin 24),
       hourlyTotals ["2024-01-01"] hbd h =
         ((["2024-01-01"] : List String).map (fun d0 => hbd d0 h)).sum /
           ((["2024-01-01"] : List String).length : Rat))) :=
  ⟨by decide, by decide, by decide, by decide, by decide, by decide,
   by with_unfolding_all decide, by with_unfolding_all decide,
   c1_hourly_bucketing ["2024-01-01"] sampleHdr _ "2024-01-01" "09:30:00" "45" 34200 45
     (by decide) (by decide) (by decide) (by decide) (by decide) (by decide)
     (by with_unfolding_all decide) (by with_unfolding_all decide)⟩

/-- Witness for C10: an input above the cap stores exactly 1440; a
non-numeric input leaves the goal unchanged with only an error dialog. -/
theorem c10_set_goal_witness :
    pyInt? "2000" = some 2000 ∧
    set_goal "2000" 690 = (1440, .info 1440) ∧
    pyInt? "abc" = none ∧
    set_goal "abc" 690 = (690, .error) :=
  ⟨by decide,
   (c10_set_goal "2000" 690).2.2.2 2000 (by decide) (by decide),
   by decide,
   (c10_set_goal "abc" 690).1 (by decide)⟩
